import Mathlib

/-!
Shallow embedding of the multi-signal document-validation core of the
repository (schema validation, per-document-type rules, semantic-stage
merging, cross-model reconciliation, aggregation), together with proofs of
the specification claims.

Modelling conventions:
* Python dicts are modelled as association lists `List (String × Value)`
  with unique keys (Python dicts cannot hold duplicate keys); insertion
  order is the iteration order, matching CPython.
* Python floats are modelled as exact rationals `Rat`; binary-float
  rounding noise is outside the model.
* A dict key that may be absent is modelled as an `Option` field.
* Python string operations (`strip`, `lower`, `replace`, regex
  substitutions) are modelled on character lists; `lower` is ASCII-only,
  and every string a claim touches is ASCII.
-/

namespace DocVal

/-- A Python runtime value as it occurs in extracted records: `None`,
`str`, `int`, `float` (modelled as `Rat`), `bool`, `list`, `dict`. -/
inductive Value where
  | null : Value
  | str  : String → Value
  | int  : Int → Value
  | float : Rat → Value
  | bool : Bool → Value
  | list : List Value → Value
  | dict : List (String × Value) → Value

/-- First-binding lookup in an association list (Python `d[k]` / `d.get(k)`
for a well-formed dict, where keys are unique). -/
def lookupVal (k : String) : List (String × Value) → Option Value
  | [] => none
  | (k', v) :: rest => if k' = k then some v else lookupVal k rest

/-- Python `k in d`. -/
def hasKey (k : String) (d : List (String × Value)) : Bool :=
  (lookupVal k d).isSome

/-- The numeric value of a Python number for `==` purposes; `True == 1`,
`False == 0`, ints and floats compare by value. `none` for non-numbers. -/
def numVal : Value → Option Rat
  | .int n => some (n : Rat)
  | .float q => some q
  | .bool b => some (if b then 1 else 0)
  | _ => none

mutual

/-- Python `==` on runtime values: numbers (`int`/`float`/`bool`) compare
numerically across types, strings by content, lists elementwise, dicts by
equal size plus key-by-key value equality; any other cross-type comparison
is `False`. -/
def valueEq : Value → Value → Bool
  | .null, .null => true
  | .str a, .str b => a = b
  | .list xs, .list ys => valueListEq xs ys
  | .dict xs, .dict ys => xs.length = ys.length && valueDictLe xs ys
  | a, b =>
    match numVal a, numVal b with
    | some x, some y => x = y
    | _, _ => false

/-- Elementwise Python `==` on lists. -/
def valueListEq : List Value → List Value → Bool
  | [], [] => true
  | x :: xs, y :: ys => valueEq x y && valueListEq xs ys
  | _, _ => false

/-- Every binding of the first dict is present (by key) in the second with
an `==`-equal value. -/
def valueDictLe : List (String × Value) → List (String × Value) → Bool
  | [], _ => true
  | (k, v) :: rest, ys =>
    (match lookupVal k ys with
     | some w => valueEq v w
     | none => false) && valueDictLe rest ys

end

mutual

/-- Well-formedness of a modelled Python value: every dict (at any depth)
has pairwise-distinct keys.  Values produced by Python always satisfy
this, since Python dicts cannot hold duplicate keys. -/
def valueWF : Value → Bool
  | .list xs => valueListWF xs
  | .dict xs => (xs.map Prod.fst).Nodup && valueDictWF xs
  | _ => true

/-- All list elements well-formed. -/
def valueListWF : List Value → Bool
  | [] => true
  | x :: xs => valueWF x && valueListWF xs

/-- All dict values well-formed. -/
def valueDictWF : List (String × Value) → Bool
  | [] => true
  | (_, v) :: xs => valueWF v && valueDictWF xs

end

/-- A well-formed record: a dict body with distinct keys, all values
well-formed. -/
def recordWF (d : List (String × Value)) : Bool :=
  valueWF (.dict d)

theorem lookupVal_mem_of_nodup (k : String) (v : Value)
    (d : List (String × Value)) (hn : (d.map Prod.fst).Nodup)
    (hm : (k, v) ∈ d) : lookupVal k d = some v := by
  induction d with
  | nil => cases hm
  | cons hd tl ih =>
    obtain ⟨k', v'⟩ := hd
    simp only [List.map_cons, List.nodup_cons] at hn
    rcases List.mem_cons.mp hm with h | h
    · cases h
      simp [lookupVal]
    · have hk : k' ≠ k := by
        intro he
        exact hn.1 (he ▸ (List.mem_map.mpr ⟨(k, v), h, rfl⟩))
      simp only [lookupVal, if_neg hk]
      exact ih hn.2 h

theorem valueEq_refl : ∀ v : Value, valueWF v = true → valueEq v v = true := by
  have main : ∀ n : Nat, ∀ v : Value, sizeOf v ≤ n → valueWF v = true →
      valueEq v v = true := by
    intro n
    induction n with
    | zero => intro v hv _; cases v <;> simp_all
    | succ n ih =>
      intro v hv hwf
      cases v with
      | null => rfl
      | str s => simp [valueEq]
      | int m => simp [valueEq, numVal]
      | float q => simp [valueEq, numVal]
      | bool b => simp [valueEq, numVal]
      | list xs =>
        simp only [valueEq]
        simp only [valueWF] at hwf
        have hsz : sizeOf xs ≤ n := by
          simp only [Value.list.sizeOf_spec] at hv; omega
        clear hv
        induction xs with
        | nil => rfl
        | cons x xs ihx =>
          simp only [valueListWF, Bool.and_eq_true] at hwf
          simp only [valueListEq, Bool.and_eq_true]
          refine ⟨ih x ?_ hwf.1, ihx hwf.2 ?_⟩
          · simp only [List.cons.sizeOf_spec] at hsz; omega
          · simp only [List.cons.sizeOf_spec] at hsz; omega
      | dict xs =>
        simp only [valueEq, Bool.and_eq_true, decide_eq_true_eq]
        refine ⟨by simp, ?_⟩
        simp only [valueWF, Bool.and_eq_true] at hwf
        have hsz : sizeOf xs ≤ n := by
          simp only [Value.dict.sizeOf_spec] at hv; omega
        -- every binding of xs looks itself up in xs
        have hlook : ∀ p ∈ xs, lookupVal p.1 xs = some p.2 := by
          intro p hp
          exact lookupVal_mem_of_nodup p.1 p.2 xs (of_decide_eq_true hwf.1) hp
        -- prove the subset check by induction over a sublist of xs
        have sub : ∀ ys : List (String × Value), (∀ p ∈ ys, p ∈ xs) →
            valueDictWF ys = true → sizeOf ys ≤ n → valueDictLe ys xs = true := by
          intro ys
          induction ys with
          | nil => intro _ _ _; rfl
          | cons p ps ihp =>
            intro hmem hwfy hszy
            obtain ⟨k, v⟩ := p
            simp only [valueDictWF, Bool.and_eq_true] at hwfy
            simp only [valueDictLe, Bool.and_eq_true]
            constructor
            · have := hlook (k, v) (hmem (k, v) (List.mem_cons_self _ _))
              simp only at this
              rw [this]
              refine ih v ?_ hwfy.1
              simp only [List.cons.sizeOf_spec, Prod.mk.sizeOf_spec] at hszy
              omega
            · refine ihp (fun q hq => hmem q (List.mem_cons_of_mem _ hq)) hwfy.2 ?_
              simp only [List.cons.sizeOf_spec] at hszy
              omega
        refine sub xs (fun p hp => hp) ?_ hsz
        -- valueDictWF xs follows from hwf
        exact hwf.2
  intro v
  exact main (sizeOf v) v (Nat.le_refl _)

/-! ## Character-list string primitives

Lean's byte-level `String` library functions (`trim`, `toLower`,
`replace`, `splitOn`) are not kernel-computable, so the Python string
operations are modelled directly on character lists. -/

/-- Python `s.strip()`: drop leading/trailing whitespace. -/
def stripWS (l : List Char) : List Char :=
  ((l.dropWhile Char.isWhitespace).reverse.dropWhile Char.isWhitespace).reverse

/-- Python `s.strip()` on strings. -/
def pyStrip (s : String) : String :=
  String.mk (stripWS s.toList)

/-- Python `s.lower()` (ASCII; the claims only exercise ASCII data). -/
def pyLower (s : String) : String :=
  String.mk (s.toList.map Char.toLower)

/-- Python `s.replace(pat, rep)` on character lists: leftmost,
non-overlapping, all occurrences.  Fueled structural recursion; every
pattern used by the source is nonempty, so fuel `text.length` is
adequate. -/
def replaceSeqFuel : Nat → List Char → List Char → List Char → List Char
  | 0, l, _, _ => l
  | _ + 1, [], _, _ => []
  | fuel + 1, c :: rest, pat, rep =>
    if pat.isPrefixOf (c :: rest) then
      rep ++ replaceSeqFuel fuel ((c :: rest).drop pat.length) pat rep
    else
      c :: replaceSeqFuel fuel rest pat rep

/-- Python `replace` on character lists at adequate fuel. -/
def replaceChars (text pat rep : List Char) : List Char :=
  replaceSeqFuel text.length text pat rep

/-! ## Field specifications (framework/scheme.py) -/

/-- The closed set of Python types used as `dtype` in the document
schemas (`str`, `int`, `float`, `bool`, `list`, `dict`). -/
inductive PyType where
  | str | int | float | bool | list | dict
deriving Repr, DecidableEq

/-- `type(v).__name__` for a modelled runtime value. -/
def pyTypeName : Value → String
  | .null => "NoneType"
  | .str _ => "str"
  | .int _ => "int"
  | .float _ => "float"
  | .bool _ => "bool"
  | .list _ => "list"
  | .dict _ => "dict"

/-- `t.__name__` for a declared dtype. -/
def dtypeName : PyType → String
  | .str => "str"
  | .int => "int"
  | .float => "float"
  | .bool => "bool"
  | .list => "list"
  | .dict => "dict"

/-- Python `isinstance(v, t)` for the closed dtype set.  Note the Python
quirk that `bool` is a subclass of `int`, so `isinstance(True, int)` is
`True`, while `isinstance(1, bool)` and `isinstance(True, float)` are
`False`. -/
def pyIsInstance : Value → PyType → Bool
  | .str _, .str => true
  | .int _, .int => true
  | .bool _, .int => true
  | .bool _, .bool => true
  | .float _, .float => true
  | .list _, .list => true
  | .dict _, .dict => true
  | _, _ => false

/-- `FieldSpec` from `framework/scheme.py`: `required`, `dtype`,
`example`, `description`. -/
structure FieldSpec where
  required : Bool
  dtype : PyType
  exampleVal : Value
  description : Option String := none

/-- A document type's field specification: an insertion-ordered mapping
field name → `FieldSpec` (modelled as an association list with unique
keys, like a Python dict). -/
def FieldSpecMap := List (String × FieldSpec)

/-- First-binding lookup in a `FieldSpecMap`. -/
def lookupSpec (k : String) : List (String × FieldSpec) → Option FieldSpec
  | [] => none
  | (k', v) :: rest => if k' = k then some v else lookupSpec k rest

/-! ## Schema validation (framework/validation/scheme_validation.py) -/

/-- A violation `{field, rule, severity, message}` as produced by the
schema validator and the rule engine.  `severity` is `Option` so that a
dict lacking the `"severity"` key can be modelled (`none`); all
violations constructed by this repository's own validators carry an
explicit severity. -/
structure Violation where
  field : String
  rule : String
  severity : Option String
  message : String
deriving Repr, DecidableEq

/-- Result shape `{is_valid, violations}` shared by schema and rule
validation. -/
structure ValidationOutput where
  is_valid : Bool
  violations : List Violation
deriving Repr, DecidableEq

/-- `_is_instance` from scheme_validation.py: `None` is always allowed,
otherwise a plain `isinstance` check. -/
def isNull : Value → Bool
  | .null => true
  | _ => false

/-- `_is_instance` from scheme_validation.py: `None` is always allowed,
otherwise a plain `isinstance` check. -/
def is_instance (value : Value) (dtype : PyType) : Bool :=
  if isNull value then true else pyIsInstance value dtype

/-- Insertion of a string into an ascending list (for modelling Python
`sorted`). -/
def insertSorted (s : String) : List String → List String
  | [] => [s]
  | x :: xs => if s ≤ x then s :: x :: xs else x :: insertSorted s xs

/-- Python `sorted` on a list of strings (ascending lexicographic). -/
def sortedStrings (l : List String) : List String :=
  l.foldr insertSorted []

/-- Python `val == "" or val == {} or val == []` together with
`val is None`: the emptiness test of scheme_validation.py (a value is
"empty" iff it is `None`, the empty string, the empty dict or the empty
list; Python `==` never identifies other values with these). -/
def isEmptyValue (v : Value) : Bool :=
  isNull v || valueEq v (.str "") || valueEq v (.dict []) || valueEq v (.list [])

/-- `validate_scheme` from scheme_validation.py: missing keys, extra
keys (when `allow_extra_keys` is false), required-but-empty keys, and
runtime-type checks; `is_valid` iff no error-severity violation. -/
def validate_scheme (data : List (String × Value))
    (scheme_specs : List (String × FieldSpec))
    (allow_extra_keys : Bool := true) : ValidationOutput :=
  let scheme_keys := scheme_specs.map Prod.fst
  let data_keys := data.map Prod.fst
  -- 1) missing keys: sorted(set(scheme_keys) - set(data_keys))
  let missing_keys := sortedStrings
    ((scheme_keys.filter (fun k => ¬ data_keys.contains k)).dedup)
  let missingViolations := missing_keys.filterMap (fun k =>
    match lookupSpec k scheme_specs with
    | some spec =>
      some { field := k, rule := "missing_key",
             severity := some (if spec.required then "error" else "warning"),
             message := "Feld \x27" ++ k ++ "\x27 fehlt im extrahierten Ergebnis." }
    | none => none)
  -- 2) extra keys: sorted(set(data_keys) - set(scheme_keys))
  let extra_keys := sortedStrings
    ((data_keys.filter (fun k => ¬ scheme_keys.contains k)).dedup)
  let extraViolations :=
    if ¬ extra_keys.isEmpty ∧ ¬ allow_extra_keys then
      extra_keys.map (fun k =>
        { field := k, rule := "unexpected_key", severity := some "warning",
          message := "Unerwarteter Schluessel \x27" ++ k ++ "\x27 im extrahierten Ergebnis." })
    else []
  -- 3) required keys not empty
  let emptyViolations := scheme_specs.filterMap (fun kv =>
    let k := kv.1
    let spec := kv.2
    match lookupVal k data with
    | none => none
    | some val =>
      if spec.required ∧ isEmptyValue val then
        some { field := k, rule := "required_field_empty", severity := some "error",
               message := "Pflichtfeld \x27" ++ k ++ "\x27 ist leer." }
      else none)
  -- 4) type checks (None is allowed)
  let typeViolations := scheme_specs.filterMap (fun kv =>
    let k := kv.1
    let spec := kv.2
    match lookupVal k data with
    | none => none
    | some val =>
      if isNull val then none
      else if ¬ is_instance val spec.dtype then
        some { field := k, rule := "type_mismatch", severity := some "warning",
               message := "Feld \x27" ++ k ++ "\x27 hat falschen Datentyp. Erwartet: "
                 ++ dtypeName spec.dtype ++ ", Gefunden: " ++ pyTypeName val ++ "." }
      else none)
  let violations := missingViolations ++ extraViolations ++ emptyViolations ++ typeViolations
  let has_error := violations.any (fun v => v.severity = some "error")
  { is_valid := ¬ has_error, violations := violations }

/-! ## Cross-model validation (framework/validation/cross_model_validation.py) -/

mutual

/-- Python `repr` of a value, used only inside conflict messages.  Float
repr is rendered from the exact rational (the binary-float shortest
round-trip repr is not modelled); string repr does not re-escape special
characters.  No claim inspects these message strings. -/
def pyRepr : Value → String
  | .null => "None"
  | .str s => "\x27" ++ s ++ "\x27"
  | .int n => toString n
  | .float q => toString q
  | .bool b => if b then "True" else "False"
  | .list xs => "[" ++ pyReprList xs ++ "]"
  | .dict xs => "\x7b" ++ pyReprDict xs ++ "\x7d"

/-- Comma-joined reprs of list elements. -/
def pyReprList : List Value → String
  | [] => ""
  | [x] => pyRepr x
  | x :: xs => pyRepr x ++ ", " ++ pyReprList xs

/-- Comma-joined reprs of dict bindings. -/
def pyReprDict : List (String × Value) → String
  | [] => ""
  | [(k, v)] => "\x27" ++ k ++ "\x27: " ++ pyRepr v
  | (k, v) :: xs => "\x27" ++ k ++ "\x27: " ++ pyRepr v ++ ", " ++ pyReprDict xs

end

/-- `_normalize_str`: strings are trimmed and lower-cased before
comparison; every other value passes through unchanged. -/
def normalize_str (v : Value) : Value :=
  match v with
  | .str s => .str (pyLower (pyStrip s))
  | v => v

/-- Python `v in (None, "")`: membership via `==`, satisfied only by
`None` and the empty string. -/
def inNoneOrEmptyStr (v : Value) : Bool :=
  isNull v || valueEq v (.str "")

/-- `_both_empty`: both values are `None`/`""`. -/
def both_empty (a b : Value) : Bool :=
  inNoneOrEmptyStr a && inNoneOrEmptyStr b

/-- `_compare_values`: lightweight comparison with normalization,
returning `(equal, message)`.  Equality is Python `==` after string
normalization; the only extra leniency is that `None` and `""` count as
equal to each other.  There is no numeric tolerance. -/
def compare_values (path : String) (a b : Value) : Bool × String :=
  let a_n := normalize_str a
  let b_n := normalize_str b
  if valueEq a_n b_n then (true, "equal")
  else if both_empty a_n b_n then (true, "both empty")
  else (false, "mismatch at " ++ path ++ ": A=" ++ pyRepr a_n ++ " vs B=" ++ pyRepr b_n)

/-- A cross-model conflict `{field, severity, type, message}`; the dict
key `"type"` is modelled by the Lean field `ctype` (`type` is a Lean
keyword). -/
structure Conflict where
  field : String
  severity : String
  ctype : String
  message : String
deriving Repr, DecidableEq

/-- Severity tallies `{errors, warnings, infos}`. -/
structure SevStats where
  errors : Nat
  warnings : Nat
  infos : Nat
deriving Repr, DecidableEq

/-- Output shape of `validate_cross_model`. -/
structure CrossModelResult where
  is_consistent : Bool
  conflicts : List Conflict
  stats : SevStats
deriving Repr, DecidableEq

/-- Is the value a Python dict? -/
def isDict : Value → Bool
  | .dict _ => true
  | _ => false

/-- The conflicts `validate_cross_model` emits for a single spec key:
missing-key handling, nested-dict key-by-key comparison, dict/non-dict
type mismatch, and scalar comparison.  Every conflict carries the spec
key as `field` and severity `error`/`warning` chosen by `spec.required`. -/
def crossKeyConflicts (key : String) (spec : FieldSpec)
    (json_a json_b : List (String × Value)) : List Conflict :=
  let sev := if spec.required then "error" else "warning"
  let a_has := hasKey key json_a
  let b_has := hasKey key json_b
  if ¬ a_has ∨ ¬ b_has then
    if ¬ a_has ∧ ¬ b_has then
      [{ field := key, severity := sev, ctype := "missing_key",
         message := "Key fehlt in beiden Extraktoren (A und B)." }]
    else
      let missing_side := if ¬ a_has then "A" else "B"
      [{ field := key, severity := sev, ctype := "missing_key",
         message := "Key fehlt in Extraktor " ++ missing_side ++ "." }]
  else
    let a_val := (lookupVal key json_a).getD .null
    let b_val := (lookupVal key json_b).getD .null
    match a_val, b_val with
    | .dict ad, .dict bd =>
      (sortedStrings ((ad.map Prod.fst ++ bd.map Prod.fst).dedup)).filterMap
        (fun sk =>
          let ap := (lookupVal sk ad).getD .null
          let bp := (lookupVal sk bd).getD .null
          let r := compare_values (key ++ "." ++ sk) ap bp
          if r.1 then none
          else some { field := key, severity := sev, ctype := "mismatch", message := r.2 })
    | av, bv =>
      if isDict av ≠ isDict bv then
        [{ field := key, severity := sev, ctype := "type_mismatch",
           message := "type mismatch: A=" ++ pyTypeName av ++ " vs B=" ++ pyTypeName bv }]
      else
        let r := compare_values key av bv
        if r.1 then []
        else [{ field := key, severity := sev, ctype := "mismatch", message := r.2 }]

/-- `validate_cross_model`: compares two extraction records field-by-field
based on the scheme and tallies conflict severities; consistent iff there
are zero errors and zero warnings. -/
def validate_cross_model (json_a json_b : List (String × Value))
    (scheme_specs : List (String × FieldSpec)) : CrossModelResult :=
  let conflicts :=
    (scheme_specs.map (fun kv => crossKeyConflicts kv.1 kv.2 json_a json_b)).flatten
  let errors := conflicts.countP (fun c => c.severity = "error")
  let warnings := conflicts.countP (fun c => c.severity = "warning")
  let infos := conflicts.countP (fun c => c.severity = "info")
  { is_consistent := errors = 0 ∧ warnings = 0,
    conflicts := conflicts,
    stats := { errors := errors, warnings := warnings, infos := infos } }

/-! ## Semantic stage merging (framework/validation/multi_stage_validation.py) -/

/-- A semantic issue `{field, type, severity, message}`; `severity` is
`Option` so a dict lacking the key can be modelled.  The dict key
`"type"` is modelled by the Lean field `itype`. -/
structure Issue where
  field : String := ""
  itype : String := ""
  severity : Option String := none
  message : String := ""
deriving Repr, DecidableEq

/-- One semantic-validation stage result.  `none` models an absent dict
key; `duration_seconds` is restricted to numeric-or-absent (the code
ignores non-numeric durations, which the model folds into `none`). -/
structure StageResult where
  status : Option String := none
  issues : List Issue := []
  comments : Option String := none
  duration_seconds : Option Rat := none
  model : Option String := none
  provider : Option String := none
deriving Repr, DecidableEq

/-- The merged semantic result.  `duration_seconds_total` is the exact
rational sum rounded to three digits (Python rounds the binary float). -/
structure MergedSemanticResult where
  status : String
  issues : List Issue
  comments : String
  stages : List StageResult
  duration_seconds_total : Rat
  models_used : List String
  providers_used : List String
  stats : SevStats
deriving Repr, DecidableEq

/-- `_unique_preserve_order`: deduplicate keeping first appearances. -/
def unique_preserve_order (items : List String) : List String :=
  items.foldl (fun out x => if out.contains x then out else out ++ [x]) []

/-- Round-half-to-even to an integer (Python `round` on an exact value). -/
def roundHalfEven (x : Rat) : Int :=
  let f := ⌊x⌋
  let r := x - (f : Rat)
  if r < 1/2 then f
  else if 1/2 < r then f + 1
  else if f % 2 = 0 then f else f + 1

/-- Python `round(x, ndigits)` modelled on exact rationals. -/
def pyRound (ndigits : Nat) (x : Rat) : Rat :=
  (roundHalfEven (x * ((10 : Rat) ^ ndigits)) : Rat) / ((10 : Rat) ^ ndigits)

/-- Effective issue severity inside `merge_semantic_results`:
`(it.get("severity") or "warning").lower()` — a missing or empty
severity string counts as `warning`. -/
def mergeIssueSev (i : Issue) : String :=
  match i.severity with
  | none => "warning"
  | some s => if s = "" then "warning" else pyLower s

/-- `merge_semantic_results`: merges stage results into one semantic
verdict (status precedence invalid > uncertain > valid, with
`parse_error` treated as `uncertain`), concatenated issues, joined
comments, summed duration, deduplicated models/providers, and severity
stats. -/
def merge_semantic_results (stage_results : List StageResult) : MergedSemanticResult :=
  let statuses := stage_results.map (fun r => r.status.getD "uncertain")
  let status :=
    if statuses.any (fun s => s = "invalid") then "invalid"
    else if statuses.any (fun s => s = "parse_error" ∨ s = "uncertain") then "uncertain"
    else "valid"
  let issues := (stage_results.map (fun r => r.issues)).flatten
  let comments := stage_results.filterMap (fun r =>
    match r.comments with
    | some c => if c = "" then none else some c
    | none => none)
  let duration_total := stage_results.foldl (fun acc r =>
    match r.duration_seconds with
    | some d => acc + d
    | none => acc) 0
  let models_used := stage_results.filterMap (fun r =>
    match r.model with
    | some m => if m = "" then none else some m
    | none => none)
  let providers_used := stage_results.filterMap (fun r =>
    match r.provider with
    | some p => if p = "" then none else some p
    | none => none)
  let errors := issues.countP (fun i => mergeIssueSev i = "error")
  let warnings := issues.countP (fun i => mergeIssueSev i = "warning")
  let infos := issues.countP (fun i => mergeIssueSev i ≠ "error" ∧ mergeIssueSev i ≠ "warning")
  { status := status,
    issues := issues,
    comments := if comments.isEmpty then "" else String.intercalate " | " comments,
    stages := stage_results,
    duration_seconds_total := pyRound 3 duration_total,
    models_used := unique_preserve_order models_used,
    providers_used := unique_preserve_order providers_used,
    stats := { errors := errors, warnings := warnings, infos := infos } }

/-! ## Aggregation (framework/pipeline/aggregator.py) -/

/-- The semantic signal as the aggregator reads it: the `"status"` and
`"issues"` entries of the semantic-validation dict (both may be
absent). -/
structure SemanticInput where
  status : Option String := none
  issues : List Issue := []
deriving Repr, DecidableEq

/-- The decision-relevant part of the aggregated artifact.  The
pass-through `extraction` payload and the wall-clock `created_at`
timestamp of the source are I/O metadata outside the model; the unused
`rules_valid` read of the source is likewise dropped. -/
structure AggregatedResult where
  document_name : String
  final_status : String
  summary : String
  schema_validation : ValidationOutput
  rule_validation : ValidationOutput
  semantic_validation : SemanticInput
  cross_model_validation : Option CrossModelResult
deriving Repr, DecidableEq

/-- Severity tally with a default for absent severities, mirroring the
aggregator's counting loops (`v.get("severity", default)`, then
`error`/`warning`/else-info); modelled as a structural tally (counting
is order-independent). -/
def countSevs (dflt : String) : List (Option String) → SevStats
  | [] => ⟨0, 0, 0⟩
  | os :: rest =>
    let sev := os.getD dflt
    let acc := countSevs dflt rest
    if sev = "error" then ⟨acc.errors + 1, acc.warnings, acc.infos⟩
    else if sev = "warning" then ⟨acc.errors, acc.warnings + 1, acc.infos⟩
    else ⟨acc.errors, acc.warnings, acc.infos + 1⟩

/-- `Path(image_path).name` for a POSIX path without trailing slash. -/
def splitOnChar (sep : Char) : List Char → List (List Char)
  | [] => [[]]
  | c :: rest =>
    match splitOnChar sep rest with
    | [] => if c = sep then [[], []] else [[c]]
    | h :: t => if c = sep then [] :: h :: t else (c :: h) :: t

/-- `Path(image_path).name` for a POSIX path without trailing slash:
the segment after the last `/`. -/
def lastPathComponent (p : String) : String :=
  match (splitOnChar '/' p.toList).getLast? with
  | some l => String.mk l
  | none => p

/-- `aggregate_validation`: combines the schema, rule, semantic and
optional cross-model signals into a final status
(`invalid`/`review_needed`/`valid`) plus a summary string.  Severity
defaults: schema/rule violations default to `error`, semantic issues to
`warning`; cross-model counts are taken from the `stats` entry. -/
def aggregate_validation (image_path : String)
    (schema_result rule_result : ValidationOutput)
    (semantic_result : SemanticInput)
    (cross_model_result : Option CrossModelResult := none) : AggregatedResult :=
  let doc_name := lastPathComponent image_path
  let schemaStats := countSevs "error" (schema_result.violations.map (fun v => v.severity))
  let ruleStats := countSevs "error" (rule_result.violations.map (fun v => v.severity))
  let sem_status := semantic_result.status.getD "uncertain"
  let semStats := countSevs "warning" (semantic_result.issues.map (fun i => i.severity))
  let cmStats : SevStats := match cross_model_result with
    | some cm => cm.stats
    | none => ⟨0, 0, 0⟩
  let final_status :=
    if sem_status = "invalid" ∨ 0 < semStats.errors ∨ 0 < ruleStats.errors
        ∨ 0 < schemaStats.errors ∨ 0 < cmStats.errors then "invalid"
    else if (sem_status = "parse_error" ∨ sem_status = "uncertain")
        ∨ 0 < semStats.warnings ∨ 0 < ruleStats.warnings
        ∨ 0 < schemaStats.warnings ∨ 0 < cmStats.warnings then "review_needed"
    else "valid"
  let summary_parts :=
    ["Dokument: " ++ doc_name,
     "Schema-Validation: Errors=" ++ toString schemaStats.errors
       ++ ", Warnings=" ++ toString schemaStats.warnings
       ++ ", Infos=" ++ toString schemaStats.infos,
     "Rule-Validation (Extraktion): Errors=" ++ toString ruleStats.errors
       ++ ", Warnings=" ++ toString ruleStats.warnings
       ++ ", Infos=" ++ toString ruleStats.infos,
     "Semantische Validation: Status=" ++ sem_status
       ++ ", Errors=" ++ toString semStats.errors
       ++ ", Warnings=" ++ toString semStats.warnings
       ++ ", Infos=" ++ toString semStats.infos]
    ++ (match cross_model_result with
        | some _ =>
          ["Cross-Model-Validation: Errors=" ++ toString cmStats.errors
            ++ ", Warnings=" ++ toString cmStats.warnings
            ++ ", Infos=" ++ toString cmStats.infos]
        | none => [])
    ++ ["Finaler Status: " ++ final_status]
  { document_name := doc_name,
    final_status := final_status,
    summary := String.intercalate " | " summary_parts,
    schema_validation := schema_result,
    rule_validation := rule_result,
    semantic_validation := semantic_result,
    cross_model_validation := cross_model_result }

/-! ## Document-type rules (framework/schemes/rechnung.py, reisekosten.py) -/

/-- `_violation` helper shared by the scheme modules. -/
def mkViolation (field rule severity message : String) : Violation :=
  { field := field, rule := rule, severity := some severity, message := message }

/-- `isinstance(x, (int, float))` together with `float(x)`: the numeric
reading of a value (`bool` is an `int` subclass in Python, so `True`
reads as `1`). `none` for non-numbers. -/
def asNumber : Value → Option Rat
  | .int n => some (n : Rat)
  | .float q => some q
  | .bool b => some (if b then 1 else 0)
  | _ => none

/-- `_rule_item_totals_consistency` (rechnung.py): for each dict item
with numeric `quantity`, `unit_price`, `total`, a deviation of
`round(quantity*unit_price, 2)` from `total` above `0.02` yields a
warning `item_total_mismatch` on `items[i].total`. -/
def rule_item_totals_consistency (data : List (String × Value)) : List Violation :=
  match (lookupVal "items" data).getD .null with
  | .list items =>
    items.enum.filterMap (fun iit =>
      match iit.2 with
      | .dict it =>
        match asNumber ((lookupVal "quantity" it).getD .null),
              asNumber ((lookupVal "unit_price" it).getD .null),
              asNumber ((lookupVal "total" it).getD .null) with
        | some q, some up, some t =>
          let calcVal := pyRound 2 (q * up)
          if (2 : Rat)/100 < |calcVal - t| then
            some (mkViolation ("items[" ++ toString iit.1 ++ "].total")
              "item_total_mismatch" "warning"
              ("Item total weicht ab: quantity*unit_price=" ++ toString calcVal
                ++ " vs total=" ++ toString t ++ "."))
          else none
        | _, _, _ => none
      | _ => none)
  | _ => []

/-- `_rule_invoice_totals_consistency` (rechnung.py): when `total_net`,
`total_vat`, `total_gross` are all numeric, a deviation of
`round(net+vat, 2)` from `gross` above `0.02` yields an error
`totals_mismatch` on `total_gross`. -/
def rule_invoice_totals_consistency (data : List (String × Value)) : List Violation :=
  match asNumber ((lookupVal "total_net" data).getD .null),
        asNumber ((lookupVal "total_vat" data).getD .null),
        asNumber ((lookupVal "total_gross" data).getD .null) with
  | some net, some vat, some gross =>
    let calcVal := pyRound 2 (net + vat)
    if (2 : Rat)/100 < |calcVal - gross| then
      [mkViolation "total_gross" "totals_mismatch" "error"
        ("Brutto != Netto+MwSt: " ++ toString calcVal ++ " vs " ++ toString gross ++ ".")]
    else []
  | _, _, _ => []

/-- `_rule_costs_sum_matches_total` (reisekosten.py): with a dict
`kosten_details` and numeric `erstattungsbetrag`, the numeric values
among `transport`/`hotel`/`tagegeld` must sum (rounded to 2 digits)
to the declared total within an absolute tolerance of `0.05`; a larger
deviation yields a warning `sum_mismatch`. -/
def rule_costs_sum_matches_total (data : List (String × Value)) : List Violation :=
  match (lookupVal "kosten_details" data).getD .null,
        asNumber ((lookupVal "erstattungsbetrag" data).getD .null) with
  | .dict details, some total =>
    let parts := ["transport", "hotel", "tagegeld"].filterMap
      (fun k => asNumber ((lookupVal k details).getD .null))
    if parts.isEmpty then []
    else
      let calcVal := pyRound 2 (parts.foldl (· + ·) 0)
      if (5 : Rat)/100 < |calcVal - total| then
        [mkViolation "erstattungsbetrag" "sum_mismatch" "warning"
          ("Summe der Kosten (" ++ toString calcVal
            ++ ") weicht vom Erstattungsbetrag (" ++ toString total ++ ") ab.")]
      else []
  | _, _ => []

/-- The `{is_valid, violations}` combination step used by the rule
dispatchers (`validate_rules_for_doc_type` in rule_registry.py and
`validate_rules` in rule_validation.py): valid iff no error-severity
violation. -/
def rules_output (violations : List Violation) : ValidationOutput :=
  { is_valid := ¬ violations.any (fun v => v.severity = some "error"),
    violations := violations }

/-- The two rechnung totals/item-consistency rules of the end-to-end
claims, run in registry order and combined like the rule dispatcher. -/
def rechnung_consistency_result (data : List (String × Value)) : ValidationOutput :=
  rules_output (rule_item_totals_consistency data ++ rule_invoice_totals_consistency data)

/-! ## Secondary-extractor schema forcing
(framework/extraction/extractor_pixtral.py) -/

/-- First regex pass of `_camel_to_snake`:
`re.sub(r"(.)([A-Z][a-z]+)", r"\1_\2", s)` — any character followed by
an uppercase letter and a maximal nonempty lowercase run gets an
underscore inserted; scanning resumes after the matched text.  Fueled
structural recursion (the fuel strictly dominates the list length, so
the zero-fuel base case is unreachable from `camelSub1`). -/
def camelSub1Fuel : Nat → List Char → List Char
  | 0, l => l
  | _ + 1, [] => []
  | _ + 1, [c] => [c]
  | _ + 1, [c, d] => [c, d]
  | fuel + 1, c :: d :: e :: rest =>
    if d.isUpper ∧ e.isLower then
      let run := (e :: rest).takeWhile Char.isLower
      let remainder := (e :: rest).dropWhile Char.isLower
      c :: '_' :: d :: (run ++ camelSub1Fuel fuel remainder)
    else
      c :: camelSub1Fuel fuel (d :: e :: rest)

/-- First camel-case pass at adequate fuel. -/
def camelSub1 (l : List Char) : List Char :=
  camelSub1Fuel l.length l

/-- Second regex pass of `_camel_to_snake`:
`re.sub(r"([a-z0-9])([A-Z])", r"\1_\2", s)` — an underscore between a
lowercase letter or digit and an uppercase letter; scanning resumes
after the matched pair. -/
def camelSub2 : List Char → List Char
  | c :: d :: rest =>
    if (c.isLower ∨ c.isDigit) ∧ d.isUpper then
      c :: '_' :: d :: camelSub2 rest
    else
      c :: camelSub2 (d :: rest)
  | l => l

/-- `re.sub(r"__+", "_", s)`: collapse each run of consecutive
underscores to a single underscore. -/
def collapseUnderscores : List Char → List Char
  | [] => []
  | [c] => [c]
  | c :: d :: rest =>
    if c = '_' ∧ d = '_' then collapseUnderscores (d :: rest)
    else c :: collapseUnderscores (d :: rest)

/-- `s.strip("_")`: drop leading and trailing underscores. -/
def stripUnderscoreEnds (l : List Char) : List Char :=
  (((l.dropWhile (· = '_')).reverse.dropWhile (· = '_'))).reverse

/-- `_normalize_key`: strip, camel-case split, lower-case, hyphens and
spaces to underscores, collapse duplicate underscores, strip surrounding
underscores. -/
def normalize_key (k : String) : String :=
  let cs := stripWS k.toList
  let cs := camelSub2 (camelSub1 cs)
  let cs := cs.map Char.toLower
  let cs := cs.map (fun c => if c = '-' ∨ c = ' ' then '_' else c)
  let cs := collapseUnderscores cs
  let cs := stripUnderscoreEnds cs
  String.mk cs

/-- `_alias_map_for_doc_type`: the hand-curated per-document-type map
schema key → accepted (normalized) secondary-extractor keys. -/
def alias_map_for_doc_type (doc_type : String) : List (String × List String) :=
  let dt := pyLower (pyStrip doc_type)
  if dt = "rechnung" then
    [("typ", ["typ", "document_type", "doctype"]),
     ("sender", ["sender", "absender", "vendor", "issuer", "aussteller", "company", "firma"]),
     ("empfaenger", ["empfaenger", "empfänger", "recipient", "customer", "kunde", "client"]),
     ("rechnungsnummer", ["rechnungsnummer", "invoice_number", "invoice_no", "invoiceid", "rechnung_nr", "rechnungnummer"]),
     ("datum", ["datum", "date", "invoice_date", "rechnungsdatum", "belegdatum"]),
     ("items", ["items", "positionen", "positions", "line_items", "lines"]),
     ("total_net", ["total_net", "netto", "subtotal", "sum_net", "net_amount", "total_ex_vat"]),
     ("total_vat", ["total_vat", "mwst", "vat", "tax", "tax_amount"]),
     ("total_gross", ["total_gross", "gesamt", "total", "gross", "grand_total", "total_inc_vat"])]
  else if dt = "urlaubsantrag" then
    [("typ", ["typ", "document_type", "doctype"]),
     ("personalnummer", ["personalnummer", "personal_nr", "employee_id", "personnel_number"]),
     ("name", ["name", "employee", "mitarbeiter", "mitarbeiter_name", "full_name"]),
     ("abteilung", ["abteilung", "department"]),
     ("art", ["art", "urlaubsart", "leave_type", "vacation_type"]),
     ("von", ["von", "urlaub_von", "start", "start_date", "from"]),
     ("bis", ["bis", "urlaub_bis", "ende", "end_date", "to"]),
     ("tage", ["tage", "urlaubstage", "days", "day_count"]),
     ("datum", ["datum", "date", "antragsdatum"]),
     ("unterschrift_arbeitnehmer", ["unterschrift_arbeitnehmer", "signature_employee", "sign_employee"])]
  else if dt = "reisekosten" then
    [("typ", ["typ", "document_type", "doctype"]),
     ("mitarbeiter", ["mitarbeiter", "name", "employee", "traveler"]),
     ("zielort", ["zielort", "destination", "city", "reiseort"]),
     ("start", ["start", "von", "start_date", "reise_von"]),
     ("ende", ["ende", "bis", "end_date", "reise_bis"]),
     ("kosten_details", ["kosten_details", "kosten", "details", "breakdown"]),
     ("erstattungsbetrag", ["erstattungsbetrag", "total", "summe", "reimbursement", "total_amount"])]
  else if dt = "bescheid" then
    [("typ", ["typ", "document_type", "doctype"]),
     ("behoerde", ["behoerde", "behörde", "authority", "issuer", "aussteller"]),
     ("aktenzeichen", ["aktenzeichen", "reference", "reference_number", "ref", "az"]),
     ("betrag", ["betrag", "amount", "summe", "fee", "total"]),
     ("grund", ["grund", "betreff", "reason", "anlass", "beschreibung"]),
     ("datum", ["datum", "date"]),
     ("zahlungsfrist", ["zahlungsfrist", "frist", "faelligkeit", "due_date", "pay_until"]),
     ("adressat", ["adressat", "empfaenger", "recipient", "bürger", "person"])]
  else if dt = "meldebescheinigung" then
    [("typ", ["typ", "document_type", "doctype"]),
     ("behoerde", ["behoerde", "behörde", "authority", "issuer"]),
     ("name", ["name", "bürger", "person", "full_name"]),
     ("geburtsdatum", ["geburtsdatum", "birth_date", "date_of_birth", "dob"]),
     ("anschrift", ["anschrift", "adresse", "address", "wohnort"]),
     ("datum", ["datum", "date", "ausstellungsdatum"]),
     ("aktenzeichen", ["aktenzeichen", "reference", "reference_number", "az"])]
  else []

/-- `alias_map.get(sk, [])`. -/
def lookupAliasList (k : String) : List (String × List String) → List String
  | [] => []
  | (k', v) :: rest => if k' = k then v else lookupAliasList k rest

/-- Scan for the regex `\d+,\d+` (a digit, a comma, a digit somewhere in
the string). -/
def hasDigitCommaDigit : List Char → Bool
  | a :: b :: c :: rest =>
    (a.isDigit && b = ',' && c.isDigit) || hasDigitCommaDigit (b :: c :: rest)
  | _ => false

/-- Digit list to natural number. -/
def natOfDigits (l : List Char) : Nat :=
  l.foldl (fun acc c => acc * 10 + (c.toNat - '0'.toNat)) 0

/-- Python `float(s)` restricted to strings over digits, `.` and `-`
(the only characters surviving the `_coerce_number` filter): an optional
leading minus, at most one decimal point, at least one digit, and no
interior minus; anything else raises (modelled as `none`). -/
def pyFloatOfChars (cs : List Char) : Option Rat :=
  if cs.any (fun c => ¬ (c.isDigit ∨ c = '.' ∨ c = '-')) then none
  else
    let neg := cs.head? = some '-'
    let body := if neg then cs.drop 1 else cs
    if body.any (fun c => c = '-') then none
    else if 1 < body.countP (fun c => c = '.') then none
    else if ¬ body.any Char.isDigit then none
    else
      let intPart := body.takeWhile (fun c => c ≠ '.')
      let fracPart := (body.dropWhile (fun c => c ≠ '.')).drop 1
      let mag : Rat :=
        (natOfDigits intPart : Rat) + (natOfDigits fracPart : Rat) / ((10 : Rat) ^ fracPart.length)
      some (if neg then -mag else mag)

/-- The string pipeline of `_coerce_number`: strip, drop currency
tokens, normalize a European decimal comma, drop all characters other
than digits/`.`/`-`, then parse as a float. -/
def coerceNumberStr (s0 : String) : Option Rat :=
  let cs := stripWS s0.toList
  if cs.isEmpty then none
  else
    let cs := replaceChars (replaceChars (replaceChars cs "€".toList []) "eur".toList []) "euro".toList []
    let cs := if hasDigitCommaDigit cs then replaceChars (replaceChars cs ['.'] []) [','] ['.'] else cs
    let cs := cs.filter (fun c => c.isDigit ∨ c = '.' ∨ c = '-')
    pyFloatOfChars cs

/-- `_coerce_number`: `None` stays `None`; numbers (including `bool`,
an `int` subclass) convert by value; strings go through the
currency/decimal-comma pipeline.  The Python code would stringify a
list/dict argument before parsing; no schema declares a numeric dtype
for a container field, so the model maps containers to `none`. -/
def coerce_number : Value → Option Rat
  | .null => none
  | .int n => some (n : Rat)
  | .float q => some q
  | .bool b => some (if b then 1 else 0)
  | .str s => coerceNumberStr s
  | _ => none

/-- Python `int(x)` on a float: truncation toward zero. -/
def pyIntTrunc (q : Rat) : Int :=
  if 0 ≤ q then ⌊q⌋ else -⌊-q⌋

/-- Insert-or-overwrite preserving first-insertion position, the
behaviour of `raw_norm[key] = v` on a Python dict. -/
def upsertVal (k : String) (v : Value) : List (String × Value) → List (String × Value)
  | [] => [(k, v)]
  | (k', w) :: rest => if k' = k then (k', v) :: rest else (k', w) :: upsertVal k v rest

/-- The first alias whose normalized form appears among the normalized
raw keys, in alias-list order. -/
def firstAliasHit (aliases : List String) (raw_norm : List (String × Value)) : Option Value :=
  match aliases with
  | [] => none
  | a :: rest =>
    match lookupVal (normalize_key a) raw_norm with
    | some v => some v
    | none => firstAliasHit rest raw_norm

/-- The per-key resolution of `_force_schema_shape`, in the fixed order
(1) exact normalized-key match, (2) doc-type alias list, (3) fuzzy match
via `get_close_matches(sk_norm, raw_keys, n=1, cutoff=0.92)`.  The fuzzy
matcher (`difflib.get_close_matches`) is Python-stdlib code outside this
repository, so it enters the model as the parameter `closeMatches`; a
candidate it returns that is not a raw key would raise in Python and is
mapped to `None`. -/
def resolveRawValue (closeMatches : String → List String → Nat → Rat → List String)
    (raw_norm : List (String × Value))
    (alias_map : List (String × List String)) (sk : String) : Value :=
  let sk_norm := normalize_key sk
  match lookupVal sk_norm raw_norm with
  | some v => v
  | none =>
    match firstAliasHit (lookupAliasList sk alias_map) raw_norm with
    | some v => v
    | none =>
      match closeMatches sk_norm (raw_norm.map Prod.fst) 1 ((92 : Rat) / 100) with
      | c :: _ => (lookupVal c raw_norm).getD .null
      | [] => .null

/-- The `"typ"` backfill test of `_force_schema_shape`:
`out.get("typ") is None or str(out.get("typ")).strip() == ""` (only
`None` and blank strings stringify-strip to empty). -/
def typIsBlank : Value → Bool
  | .null => true
  | .str s => stripWS s.toList = []
  | _ => false

/-- The per-key dtype coercion step of `_force_schema_shape`: `float`
dtypes run `_coerce_number`, `int` dtypes run it and truncate; a failed
parse leaves `None`. -/
def coerceForSpec (schema : List (String × FieldSpec)) (k : String) (v : Value) : Value :=
  match lookupSpec k schema with
  | some spec =>
    if isNull v then v
    else if spec.dtype = .float then
      match coerce_number v with
      | some q => .float q
      | none => .null
    else if spec.dtype = .int then
      match coerce_number v with
      | some q => .int (pyIntTrunc q)
      | none => .null
    else v
  | none => v

/-- `_force_schema_shape`: returns a dict with exactly the schema keys,
resolving each from the secondary extractor's raw output by exact
normalized match, then alias, then fuzzy match; unmatched keys stay
`None`; a blank `"typ"` is backfilled with the document type; numeric
dtypes are coerced. -/
def force_schema_shape (closeMatches : String → List String → Nat → Rat → List String)
    (raw : List (String × Value)) (schema : List (String × FieldSpec))
    (doc_type : String) : List (String × Value) :=
  let alias_map := alias_map_for_doc_type doc_type
  let raw_norm := raw.foldl (fun acc kv => upsertVal (normalize_key kv.1) kv.2 acc) []
  let resolved := (schema.map Prod.fst).map
    (fun sk => (sk, resolveRawValue closeMatches raw_norm alias_map sk))
  let withTyp := resolved.map (fun kv =>
    (kv.1, if kv.1 = "typ" ∧ typIsBlank kv.2 then Value.str doc_type else kv.2))
  withTyp.map (fun kv => (kv.1, coerceForSpec schema kv.1 kv.2))

/-- `get_schema()` of framework/schemes/rechnung.py. -/
def rechnung_schema : List (String × FieldSpec) :=
  [("typ", ⟨true, .str, .str "rechnung", some "Dokumenttyp"⟩),
   ("sender", ⟨true, .str, .str "Jäkel Martin e.V.", some "Absender/Firma"⟩),
   ("empfaenger", ⟨true, .str, .str "Iwona Martin", some "Empfänger"⟩),
   ("rechnungsnummer", ⟨true, .str, .str "RE-2026-1520", some "Rechnungsnummer"⟩),
   ("datum", ⟨true, .str, .str "09.01.2026", some "Rechnungsdatum"⟩),
   ("items", ⟨true, .list,
     .list [.dict [("description", .str "Incubate collaborative eyeballs"),
                   ("quantity", .int 2), ("unit_price", .float 40.61),
                   ("total", .float 81.22)]],
     some "Positionen: Liste aus dicts(description, quantity, unit_price, total)"⟩),
   ("total_net", ⟨true, .float, .float 929.74, some "Nettosumme"⟩),
   ("total_vat", ⟨true, .float, .float 176.65, some "MwSt"⟩),
   ("total_gross", ⟨true, .float, .float 1106.39, some "Gesamtsumme (brutto)"⟩)]

/-! ## Helper lemmas -/

theorem countSevs_errors_eq (dflt : String) (l : List (Option String)) :
    (countSevs dflt l).errors = l.countP (fun os => os.getD dflt = "error") := by
  induction l with
  | nil => rfl
  | cons x rest ih =>
    simp only [countSevs, List.countP_cons]
    by_cases h1 : x.getD dflt = "error"
    · simp [h1, ih]
    · by_cases h2 : x.getD dflt = "warning" <;> simp [h1, h2, ih]

theorem countSevs_warnings_eq (dflt : String) (l : List (Option String)) :
    (countSevs dflt l).warnings =
      l.countP (fun os => os.getD dflt ≠ "error" ∧ os.getD dflt = "warning") := by
  induction l with
  | nil => rfl
  | cons x rest ih =>
    simp only [countSevs, List.countP_cons]
    by_cases h1 : x.getD dflt = "error"
    · simp [h1, ih]
    · by_cases h2 : x.getD dflt = "warning" <;> simp [h1, h2, ih]

theorem countP_pos_iff {α : Type} (p : α → Bool) (l : List α) :
    0 < l.countP p ↔ ∃ x ∈ l, p x = true := by
  rw [List.countP_pos_iff]

theorem any_eq_of_perm {α : Type} {l l' : List α} (hp : l.Perm l') (q : α → Bool) :
    l.any q = l'.any q := by
  cases h : l'.any q with
  | true =>
    obtain ⟨x, hx, hqx⟩ := List.any_eq_true.mp h
    exact List.any_eq_true.mpr ⟨x, hp.mem_iff.mpr hx, hqx⟩
  | false =>
    rw [List.any_eq_false] at h
    exact List.any_eq_false.mpr (fun x hx => h x (hp.mem_iff.mp hx))

theorem any_map_eq {α β : Type} (f : α → β) (p : β → Bool) (l : List α) :
    (l.map f).any p = l.any (fun x => p (f x)) := by
  induction l with
  | nil => rfl
  | cons x rest ih => simp [List.any_cons, ih]

/-! ## Claim theorems -/

theorem count_errors_pos_iff (dflt : String) (l : List (Option String))
    (h : ∀ os ∈ l, os ≠ none) :
    (0 < (countSevs dflt l).errors) ↔ ∃ os ∈ l, os = some "error" := by
  rw [countSevs_errors_eq, countP_pos_iff]
  constructor
  · rintro ⟨os, hos, heq⟩
    refine ⟨os, hos, ?_⟩
    cases os with
    | none => exact absurd rfl (h none hos)
    | some s =>
      simp only [Option.getD_some, decide_eq_true_eq] at heq
      rw [heq]
  · rintro ⟨os, hos, rfl⟩
    exact ⟨some "error", hos, by simp⟩

theorem count_warnings_pos_iff (dflt : String) (l : List (Option String))
    (h : ∀ os ∈ l, os ≠ none) :
    (0 < (countSevs dflt l).warnings) ↔ ∃ os ∈ l, os = some "warning" := by
  rw [countSevs_warnings_eq, countP_pos_iff]
  constructor
  · rintro ⟨os, hos, heq⟩
    refine ⟨os, hos, ?_⟩
    cases os with
    | none => exact absurd rfl (h none hos)
    | some s =>
      simp only [Option.getD_some, decide_eq_true_eq] at heq
      rw [heq.2]
  · rintro ⟨os, hos, rfl⟩
    exact ⟨some "warning", hos, by simp⟩

/-- C1: the aggregator's final status is `invalid` iff the semantic
status is `invalid` or some signal holds an error-severity item
(cross-model counted through its `stats`); otherwise `review_needed`
iff the semantic status is `uncertain`/`parse_error` (a missing status
reads as `uncertain`) or some signal holds a warning-severity item;
otherwise `valid`.  Hypotheses: every violation/issue carries an
explicit severity, and the cross-model `stats` tally its conflicts (as
`validate_cross_model` guarantees). -/
theorem exists_map_eq_iff {α : Type} (f : α → Option String) (l : List α) (t : Option String) :
    (∃ os ∈ l.map f, os = t) ↔ ∃ x ∈ l, f x = t := by
  simp [List.mem_map]

/-- C1: the aggregator's final status is `invalid` iff the semantic
status is `invalid` or some signal holds an error-severity item
(cross-model counted through its `stats`); otherwise `review_needed`
iff the semantic status is `uncertain`/`parse_error` (a missing status
reads as `uncertain`) or some signal holds a warning-severity item
(semantic uncertain/parse_error suffices on its own, with zero
warnings); otherwise `valid`.  Hypotheses: every violation/issue
carries an explicit severity, and the cross-model `stats` tally its
conflicts (as `validate_cross_model` guarantees). -/
theorem aggregate_final_status_spec
    (image_path : String) (schema_result rule_result : ValidationOutput)
    (sem : SemanticInput) (cm : Option CrossModelResult)
    (hs : ∀ v ∈ schema_result.violations, v.severity ≠ none)
    (hr : ∀ v ∈ rule_result.violations, v.severity ≠ none)
    (hi : ∀ i ∈ sem.issues, i.severity ≠ none)
    (hcm : ∀ c ∈ cm, c.stats =
      { errors := c.conflicts.countP (fun x => x.severity = "error"),
        warnings := c.conflicts.countP (fun x => x.severity = "warning"),
        infos := c.conflicts.countP (fun x => x.severity = "info") }) :
    (aggregate_validation image_path schema_result rule_result sem cm).final_status =
      (if sem.status.getD "uncertain" = "invalid"
          ∨ (∃ i ∈ sem.issues, i.severity = some "error")
          ∨ (∃ v ∈ rule_result.violations, v.severity = some "error")
          ∨ (∃ v ∈ schema_result.violations, v.severity = some "error")
          ∨ (∃ c ∈ cm, ∃ x ∈ c.conflicts, x.severity = "error")
        then "invalid"
        else if (sem.status.getD "uncertain" = "uncertain"
            ∨ sem.status.getD "uncertain" = "parse_error")
          ∨ (∃ i ∈ sem.issues, i.severity = some "warning")
          ∨ (∃ v ∈ rule_result.violations, v.severity = some "warning")
          ∨ (∃ v ∈ schema_result.violations, v.severity = some "warning")
          ∨ (∃ c ∈ cm, ∃ x ∈ c.conflicts, x.severity = "warning")
        then "review_needed"
        else "valid") := by
  have hsE := count_errors_pos_iff "error" (schema_result.violations.map (fun v => v.severity))
    (by intro os hos; obtain ⟨v, hv, rfl⟩ := List.mem_map.mp hos; exact hs v hv)
  have hsW := count_warnings_pos_iff "error" (schema_result.violations.map (fun v => v.severity))
    (by intro os hos; obtain ⟨v, hv, rfl⟩ := List.mem_map.mp hos; exact hs v hv)
  have hrE := count_errors_pos_iff "error" (rule_result.violations.map (fun v => v.severity))
    (by intro os hos; obtain ⟨v, hv, rfl⟩ := List.mem_map.mp hos; exact hr v hv)
  have hrW := count_warnings_pos_iff "error" (rule_result.violations.map (fun v => v.severity))
    (by intro os hos; obtain ⟨v, hv, rfl⟩ := List.mem_map.mp hos; exact hr v hv)
  have hiE := count_errors_pos_iff "warning" (sem.issues.map (fun i => i.severity))
    (by intro os hos; obtain ⟨i, hi2, rfl⟩ := List.mem_map.mp hos; exact hi i hi2)
  have hiW := count_warnings_pos_iff "warning" (sem.issues.map (fun i => i.severity))
    (by intro os hos; obtain ⟨i, hi2, rfl⟩ := List.mem_map.mp hos; exact hi i hi2)
  cases cm with
  | none =>
    simp only [aggregate_validation]
    simp only [hsE, hsW, hrE, hrW, hiE, hiW, exists_map_eq_iff]
    simp only [Option.mem_def, Option.some.injEq, reduceCtorEq, false_and, exists_false,
      exists_and_left, exists_eq_left, or_false, lt_self_iff_false]
    simp only [or_comm (a := sem.status.getD "uncertain" = "parse_error")
      (b := sem.status.getD "uncertain" = "uncertain")]
  | some c =>
    have hc := hcm c rfl
    simp only [aggregate_validation, hc]
    simp only [hsE, hsW, hrE, hrW, hiE, hiW, exists_map_eq_iff, countP_pos_iff]
    simp only [Option.mem_def, Option.some.injEq, exists_eq_left, exists_eq_left',
      decide_eq_true_eq]
    simp only [or_comm (a := sem.status.getD "uncertain" = "parse_error")
      (b := sem.status.getD "uncertain" = "uncertain")]

/-- Witness for C1 at a concrete input: one error-severity schema
violation forces `invalid` even though rules/semantics are clean and
the cross-model result holds only a warning. -/
theorem aggregate_final_status_spec_witness :
    (aggregate_validation "a/doc.png" ⟨false, [⟨"f", "missing_key", some "error", "m"⟩]⟩
      ⟨true, []⟩ ⟨some "valid", []⟩
      (some ⟨false, [⟨"k", "warning", "mismatch", "msg"⟩], ⟨0, 1, 0⟩⟩)).final_status
      = "invalid" := by
  have h := aggregate_final_status_spec "a/doc.png"
    ⟨false, [⟨"f", "missing_key", some "error", "m"⟩]⟩ ⟨true, []⟩ ⟨some "valid", []⟩
    (some ⟨false, [⟨"k", "warning", "mismatch", "msg"⟩], ⟨0, 1, 0⟩⟩)
    (by decide) (by decide) (by decide)
    (by intro c hc; simp only [Option.mem_def, Option.some.injEq] at hc; subst hc; decide)
  rw [h]
  decide

theorem crossKeyConflicts_fields (key : String) (spec : FieldSpec)
    (A B : List (String × Value)) :
    ∀ c ∈ crossKeyConflicts key spec A B,
      c.field = key ∧ c.severity = (if spec.required then "error" else "warning") := by
  intro c hc
  simp only [crossKeyConflicts] at hc
  split at hc
  · split at hc
    · simp only [List.mem_singleton] at hc
      subst hc
      exact ⟨rfl, rfl⟩
    · simp only [List.mem_singleton] at hc
      subst hc
      exact ⟨rfl, rfl⟩
  · split at hc
    · simp only [List.mem_filterMap] at hc
      obtain ⟨sk, _, hsk⟩ := hc
      split at hsk
      · cases hsk
      · cases hsk
        exact ⟨rfl, rfl⟩
    · split at hc
      · simp only [List.mem_singleton] at hc
        subst hc
        exact ⟨rfl, rfl⟩
      · split at hc
        · cases hc
        · simp only [List.mem_singleton] at hc
          subst hc
          exact ⟨rfl, rfl⟩

/-- C9: every conflict emitted by `validate_cross_model` carries its
spec key as `field` and severity `error` or `warning` chosen solely by
whether that field's spec is required; no `info` conflict is ever
produced, so `stats.infos = 0`, and `is_consistent` holds exactly when
the conflict list is empty. -/
theorem validate_cross_model_invariants (A B : List (String × Value))
    (S : List (String × FieldSpec)) :
    (∀ c ∈ (validate_cross_model A B S).conflicts,
      ∃ p ∈ S, c.field = p.1 ∧ c.severity = (if p.2.required then "error" else "warning"))
    ∧ (validate_cross_model A B S).stats.infos = 0
    ∧ ((validate_cross_model A B S).is_consistent = true ↔
        (validate_cross_model A B S).conflicts = []) := by
  have hmem : ∀ c ∈ (validate_cross_model A B S).conflicts,
      ∃ p ∈ S, c.field = p.1 ∧ c.severity = (if p.2.required then "error" else "warning") := by
    intro c hc
    simp only [validate_cross_model, List.mem_flatten, List.mem_map] at hc
    obtain ⟨l, ⟨p, hp, rfl⟩, hcl⟩ := hc
    exact ⟨p, hp, crossKeyConflicts_fields p.1 p.2 A B c hcl⟩
  have hsev : ∀ c ∈ (validate_cross_model A B S).conflicts,
      c.severity = "error" ∨ c.severity = "warning" := by
    intro c hc
    obtain ⟨p, _, _, h⟩ := hmem c hc
    by_cases hreq : p.2.required = true
    · left; rw [h, if_pos hreq]
    · right; rw [h, if_neg hreq]
  refine ⟨hmem, ?_, ?_⟩
  · show ((validate_cross_model A B S).conflicts.countP (fun c => c.severity = "info")) = 0
    rw [List.countP_eq_zero]
    intro c hc
    rcases hsev c hc with h | h <;> simp [h]
  · show (decide _ = true) ↔ _
    rw [decide_eq_true_eq]
    constructor
    · intro h
      cases hco : (validate_cross_model A B S).conflicts with
      | nil => rfl
      | cons c rest =>
        have hcmem : c ∈ (validate_cross_model A B S).conflicts := by
          rw [hco]; exact List.mem_cons_self _ _
        rcases hsev c hcmem with hs | hs
        · have : 0 < (validate_cross_model A B S).conflicts.countP
              (fun x => x.severity = "error") :=
            (countP_pos_iff _ _).mpr ⟨c, hcmem, by simp [hs]⟩
          have he := h.1
          simp only [validate_cross_model] at he this
          omega
        · have : 0 < (validate_cross_model A B S).conflicts.countP
              (fun x => x.severity = "warning") :=
            (countP_pos_iff _ _).mpr ⟨c, hcmem, by simp [hs]⟩
          have he := h.2
          simp only [validate_cross_model] at he this
          omega
    · intro h
      constructor <;> · simp only [validate_cross_model] at h ⊢; rw [h]; rfl

/-- Witness for C9's per-conflict clause at a concrete input (a record
pair lacking the required key on one side). -/
theorem validate_cross_model_invariants_witness :
    (validate_cross_model [("x", Value.str "a")] []
      [("x", ⟨true, .str, .null, none⟩)]).stats.infos = 0 :=
  (validate_cross_model_invariants [("x", Value.str "a")] []
    [("x", ⟨true, .str, .null, none⟩)]).2.1

theorem lookupVal_some_mem (k : String) (d : List (String × Value)) (v : Value)
    (h : lookupVal k d = some v) : (k, v) ∈ d := by
  induction d with
  | nil => cases h
  | cons hd tl ih =>
    obtain ⟨k', w⟩ := hd
    simp only [lookupVal] at h
    by_cases hk : k' = k
    · rw [if_pos hk] at h
      cases h
      subst hk
      exact List.mem_cons_self _ _
    · rw [if_neg hk] at h
      exact List.mem_cons_of_mem _ (ih h)

theorem valueDictWF_of_mem (d : List (String × Value)) (h : valueDictWF d = true)
    (k : String) (v : Value) (hm : (k, v) ∈ d) : valueWF v = true := by
  induction d with
  | nil => cases hm
  | cons hd tl ih =>
    obtain ⟨k', w⟩ := hd
    simp only [valueDictWF, Bool.and_eq_true] at h
    rcases List.mem_cons.mp hm with he | he
    · cases he
      exact h.1
    · exact ih h.2 he

theorem valueWF_getD_lookup (d : List (String × Value)) (h : valueDictWF d = true)
    (k : String) : valueWF ((lookupVal k d).getD Value.null) = true := by
  cases hl : lookupVal k d with
  | none => rfl
  | some v =>
    simp only [Option.getD_some]
    exact valueDictWF_of_mem d h k v (lookupVal_some_mem k d v hl)

theorem normalize_str_wf (v : Value) (h : valueWF v = true) :
    valueWF (normalize_str v) = true := by
  cases v <;> simp only [normalize_str] <;> simp only [valueWF] at h ⊢ <;> exact h

theorem compare_values_fst_self (p : String) (v : Value) (h : valueWF v = true) :
    (compare_values p v v).1 = true := by
  unfold compare_values
  rw [if_pos (valueEq_refl (normalize_str v) (normalize_str_wf v h))]

theorem recordWF_dictWF (A : List (String × Value)) (h : recordWF A = true) :
    valueDictWF A = true := by
  simp only [recordWF, valueWF, Bool.and_eq_true] at h
  exact h.2

theorem crossKeyConflicts_self_nil (key : String) (spec : FieldSpec)
    (A : List (String × Value)) (hwf : recordWF A = true)
    (hk : hasKey key A = true) :
    crossKeyConflicts key spec A A = [] := by
  have hdwf : valueDictWF A = true := recordWF_dictWF A hwf
  have hvwf : valueWF ((lookupVal key A).getD Value.null) = true :=
    valueWF_getD_lookup A hdwf key
  simp only [crossKeyConflicts, hk, not_true_eq_false, false_or, or_self, if_false]
  cases hv : (lookupVal key A).getD Value.null with
  | dict ad =>
    simp only [hv]
    have hadwf : valueDictWF ad = true := by
      rw [hv] at hvwf
      simp only [valueWF, Bool.and_eq_true] at hvwf
      exact hvwf.2
    rw [List.filterMap_eq_nil_iff]
    intro sk _
    have hap : valueWF ((lookupVal sk ad).getD Value.null) = true :=
      valueWF_getD_lookup ad hadwf sk
    simp only [compare_values_fst_self _ _ hap, ite_true, if_pos]
  | null =>
    simp only [hv]
    rw [if_neg (fun h => h rfl), if_pos (compare_values_fst_self key _ (hv ▸ hvwf))]
  | str s =>
    simp only [hv]
    rw [if_neg (fun h => h rfl), if_pos (compare_values_fst_self key _ (hv ▸ hvwf))]
  | int n =>
    simp only [hv]
    rw [if_neg (fun h => h rfl), if_pos (compare_values_fst_self key _ (hv ▸ hvwf))]
  | float q =>
    simp only [hv]
    rw [if_neg (fun h => h rfl), if_pos (compare_values_fst_self key _ (hv ▸ hvwf))]
  | bool b =>
    simp only [hv]
    rw [if_neg (fun h => h rfl), if_pos (compare_values_fst_self key _ (hv ▸ hvwf))]
  | list xs =>
    simp only [hv]
    rw [if_neg (fun h => h rfl), if_pos (compare_values_fst_self key _ (hv ▸ hvwf))]

/-- C4 counterexample: comparing the empty record against itself under
a scheme with one required key yields a missing-key conflict on both
sides, so `is_consistent` is `false` — reflexivity fails as stated. -/
theorem cross_model_refl_counterexample :
    (validate_cross_model [] [] [("x", ⟨true, .str, .null, none⟩)]).is_consistent
      = false := by decide

/-- C4 (amended): cross-model reconciliation is reflexive for records
that are well-formed (distinct dict keys, as Python guarantees) and
contain every scheme key: `validate_cross_model A A S` is consistent. -/
theorem cross_model_refl_of_keys_present (A : List (String × Value))
    (S : List (String × FieldSpec)) (hwf : recordWF A = true)
    (hkeys : ∀ p ∈ S, hasKey p.1 A = true) :
    (validate_cross_model A A S).is_consistent = true := by
  have hconf : (S.map (fun p => crossKeyConflicts p.1 p.2 A A)).flatten = [] := by
    rw [List.flatten_eq_nil_iff]
    intro l hl
    obtain ⟨p, hp, rfl⟩ := List.mem_map.mp hl
    exact crossKeyConflicts_self_nil p.1 p.2 A hwf (hkeys p hp)
  simp only [validate_cross_model, hconf]
  rfl

/-- Witness for C4's amended reflexivity at a concrete record. -/
theorem cross_model_refl_of_keys_present_witness :
    (validate_cross_model [("x", Value.str "a")] [("x", Value.str "a")]
      [("x", ⟨true, .str, .null, none⟩)]).is_consistent = true :=
  cross_model_refl_of_keys_present [("x", Value.str "a")]
    [("x", ⟨true, .str, .null, none⟩)]
    (by simp [recordWF, valueWF, valueDictWF]) (by decide)

/-- C5 counterexample: two numeric values for the same spec key whose
absolute difference is `0.01` — inside the claimed default tolerance of
about `0.01`–`0.02` — still produce a conflict: `validate_cross_model`
compares numbers exactly. -/
theorem numeric_tolerance_counterexample :
    (validate_cross_model [("betrag", Value.float 100)] [("betrag", Value.float 100.01)]
      [("betrag", ⟨true, .float, .null, none⟩)]).is_consistent = false
    ∧ |(100.01 : Rat) - 100| ≤ 2/100 := by
  have hne : (100 : Rat) ≠ 100.01 := by norm_num
  constructor
  · simp [validate_cross_model, crossKeyConflicts, hasKey, lookupVal, compare_values,
      normalize_str, both_empty, inNoneOrEmptyStr, isNull, isDict, valueEq, numVal, hne]
  · rw [abs_le]
    norm_num

/-- C5 (amended): cross-model field comparison applies no numeric
tolerance: two float values compare equal exactly when they are the
same rational, so any nonzero difference — however small — is a
mismatch. -/
theorem compare_values_numeric_exact (path : String) (a b : Rat) :
    ((compare_values path (Value.float a) (Value.float b)).1 = true) ↔ a = b := by
  by_cases h : a = b
  · simp [compare_values, normalize_str, valueEq, numVal, h]
  · simp [compare_values, normalize_str, valueEq, numVal, both_empty,
      inNoneOrEmptyStr, isNull, h]

theorem pyRound_eq_self (d : Nat) (q : Rat) (m : Int)
    (h : q * (10 : Rat) ^ d = (m : Rat)) : pyRound d q = q := by
  have hpow : ((10 : Rat) ^ d) ≠ 0 := by positivity
  unfold pyRound roundHalfEven
  rw [h, Int.floor_intCast]
  simp only [sub_self]
  rw [if_pos (by norm_num : (0 : Rat) < 1 / 2)]
  rw [← h]
  field_simp

/-- C6: for the reisekosten sum-consistency rule with declared total
`100.00`, cost parts summing to `99.95` (deviation exactly the `0.05`
tolerance — boundary inclusive) raise no violation, while parts summing
to `99.90` raise exactly one warning `sum_mismatch`. -/
theorem reisekosten_sum_tolerance_boundary :
    (∀ t h g : Rat, t + h + g = 99.95 →
      rule_costs_sum_matches_total
        [("kosten_details", .dict [("transport", .float t), ("hotel", .float h),
            ("tagegeld", .float g)]),
         ("erstattungsbetrag", .float 100)] = [])
    ∧ (∀ t h g : Rat, t + h + g = 99.9 →
      ∃ v, rule_costs_sum_matches_total
        [("kosten_details", .dict [("transport", .float t), ("hotel", .float h),
            ("tagegeld", .float g)]),
         ("erstattungsbetrag", .float 100)] = [v]
        ∧ v.severity = some "warning" ∧ v.rule = "sum_mismatch"
        ∧ v.field = "erstattungsbetrag") := by
  constructor
  · intro t h g hsum
    simp only [rule_costs_sum_matches_total]
    simp [lookupVal, asNumber, List.filterMap, List.foldl]
    rw [hsum, pyRound_eq_self 2 (99.95 : Rat) 9995 (by norm_num)]
    have habs : |(99.95 : Rat) - 100| = 1 / 20 := by
      rw [show (99.95 : Rat) - 100 = -(1 / 20) by norm_num, abs_neg,
        abs_of_nonneg (by norm_num : (0 : Rat) ≤ 1 / 20)]
    rw [habs]
    norm_num
  · intro t h g hsum
    simp only [rule_costs_sum_matches_total]
    simp [lookupVal, asNumber, List.filterMap, List.foldl]
    rw [hsum, pyRound_eq_self 2 (99.9 : Rat) 9990 (by norm_num)]
    have habs : |(99.9 : Rat) - 100| = 1 / 10 := by
      rw [show (99.9 : Rat) - 100 = -(1 / 10) by norm_num, abs_neg,
        abs_of_nonneg (by norm_num : (0 : Rat) ≤ 1 / 10)]
    rw [if_pos (by rw [habs]; norm_num)]
    exact ⟨_, rfl, rfl, rfl, rfl⟩

/-- Witness for C6 at concrete cost parts (50, 30, 19.95) and
(50, 30, 19.90). -/
theorem reisekosten_sum_tolerance_boundary_witness :
    (rule_costs_sum_matches_total
      [("kosten_details", .dict [("transport", .float 50), ("hotel", .float 30),
          ("tagegeld", .float 19.95)]),
       ("erstattungsbetrag", .float 100)] = [])
    ∧ ∃ v, rule_costs_sum_matches_total
        [("kosten_details", .dict [("transport", .float 50), ("hotel", .float 30),
            ("tagegeld", .float 19.9)]),
         ("erstattungsbetrag", .float 100)] = [v]
        ∧ v.severity = some "warning" ∧ v.rule = "sum_mismatch"
        ∧ v.field = "erstattungsbetrag" :=
  ⟨reisekosten_sum_tolerance_boundary.1 50 30 19.95 (by norm_num),
   reisekosten_sum_tolerance_boundary.2 50 30 19.9 (by norm_num)⟩

/-- The rechnung record of the end-to-end claims with the inconsistent
gross total `130.00`. -/
def rechnung_record_130 : List (String × Value) :=
  [("typ", .str "rechnung"), ("total_net", .float 100), ("total_vat", .float 19),
   ("total_gross", .float 130),
   ("items", .list [.dict [("quantity", .int 2), ("unit_price", .int 10),
     ("total", .int 20)]])]

/-- The same record with the consistent gross total `119.00`. -/
def rechnung_record_119 : List (String × Value) :=
  [("typ", .str "rechnung"), ("total_net", .float 100), ("total_vat", .float 19),
   ("total_gross", .float 119),
   ("items", .list [.dict [("quantity", .int 2), ("unit_price", .int 10),
     ("total", .int 20)]])]

/-- C7: with `total_net=100.00`, `total_vat=19.00`, `total_gross=130.00`
and the single item `{quantity:2, unit_price:10, total:20}`, the
rechnung totals/item-consistency rules produce exactly one violation —
severity `error`, rule `totals_mismatch`, field `total_gross` — and
aggregating that rule result yields `final_status = "invalid"`; with
`total_gross=119.00` the same rules produce zero violations and the
rule result is valid. -/
theorem rechnung_totals_scenario :
    (rechnung_consistency_result rechnung_record_130).violations.length = 1
    ∧ (∀ v ∈ (rechnung_consistency_result rechnung_record_130).violations,
        v.field = "total_gross" ∧ v.rule = "totals_mismatch" ∧ v.severity = some "error")
    ∧ (aggregate_validation "doc.png" ⟨true, []⟩ (rechnung_consistency_result rechnung_record_130)
        ⟨some "valid", []⟩ none).final_status = "invalid"
    ∧ (rechnung_consistency_result rechnung_record_119).violations = []
    ∧ (rechnung_consistency_result rechnung_record_119).is_valid = true := by
  have hitem130 : rule_item_totals_consistency rechnung_record_130 = [] := by
    simp [rule_item_totals_consistency, rechnung_record_130, lookupVal, asNumber, List.enum]
    rw [show (2 : Rat) * 10 = 20 by norm_num,
      pyRound_eq_self 2 (20 : Rat) 2000 (by norm_num)]
    norm_num
  have hitem119 : rule_item_totals_consistency rechnung_record_119 = [] := by
    simp [rule_item_totals_consistency, rechnung_record_119, lookupVal, asNumber, List.enum]
    rw [show (2 : Rat) * 10 = 20 by norm_num,
      pyRound_eq_self 2 (20 : Rat) 2000 (by norm_num)]
    norm_num
  have hinv130 : ∃ v : Violation, rule_invoice_totals_consistency rechnung_record_130 = [v]
      ∧ v.field = "total_gross" ∧ v.rule = "totals_mismatch" ∧ v.severity = some "error" := by
    simp only [rule_invoice_totals_consistency, rechnung_record_130]
    simp [lookupVal, asNumber]
    rw [show (100 : Rat) + 19 = 119 by norm_num,
      pyRound_eq_self 2 (119 : Rat) 11900 (by norm_num)]
    rw [if_pos (by rw [show |(119 : Rat) - 130| = 11 by
        rw [show (119 : Rat) - 130 = -11 by norm_num, abs_neg,
          abs_of_nonneg (by norm_num : (0 : Rat) ≤ 11)]]; norm_num)]
    exact ⟨_, rfl, rfl, rfl, rfl⟩
  have hinv119 : rule_invoice_totals_consistency rechnung_record_119 = [] := by
    simp only [rule_invoice_totals_consistency, rechnung_record_119]
    simp [lookupVal, asNumber]
    rw [show (100 : Rat) + 19 = 119 by norm_num,
      pyRound_eq_self 2 (119 : Rat) 11900 (by norm_num)]
    norm_num
  obtain ⟨v, hveq, hvf, hvr, hvs⟩ := hinv130
  have hcv : (rechnung_consistency_result rechnung_record_130).violations = [v] := by
    simp [rechnung_consistency_result, rules_output, hitem130, hveq]
  have h119 : (rechnung_consistency_result rechnung_record_119).violations = [] := by
    simp [rechnung_consistency_result, rules_output, hitem119, hinv119]
  refine ⟨?_, ?_, ?_, h119, ?_⟩
  · rw [hcv]
    rfl
  · intro w hw
    rw [hcv] at hw
    simp only [List.mem_singleton] at hw
    subst hw
    exact ⟨hvf, hvr, hvs⟩
  · simp only [aggregate_validation, hcv]
    simp [countSevs, hvs]
  · simp [rechnung_consistency_result, rules_output, hitem119, hinv119]

/-- Witness for C5's amended statement at a concrete pair of equal
floats. -/
theorem compare_values_numeric_exact_witness :
    ((compare_values "k" (Value.float 1) (Value.float 1)).1 = true) ↔ (1 : Rat) = 1 :=
  compare_values_numeric_exact "k" 1 1

/-- C8: `_force_schema_shape` resolves each schema key by exact
normalized match, then the doc-type alias list, then the fuzzy matcher
(`get_close_matches` at cutoff `0.92`, modelled as the parameter
`closeMatches`).  For doc type `rechnung`, a raw key `invoice_number`
populates `rechnungsnummer` for every fuzzy matcher — i.e. through the
alias table, before the fuzzy step is consulted — while a raw
`rechnungsnummer` key wins over the alias through the exact step. -/
theorem alias_resolution_invoice_number
    (closeMatches : String → List String → Nat → Rat → List String) :
    lookupVal "rechnungsnummer"
      (force_schema_shape closeMatches [("invoice_number", Value.str "RE-2026-1520")]
        rechnung_schema "rechnung") = some (Value.str "RE-2026-1520")
    ∧ lookupVal "rechnungsnummer"
        (force_schema_shape closeMatches
          [("rechnungsnummer", Value.str "EXACT"), ("invoice_number", Value.str "ALIAS")]
          rechnung_schema "rechnung") = some (Value.str "EXACT") :=
  ⟨rfl, rfl⟩

/-- Witness for C8 at the fuzzy matcher that returns no candidates. -/
theorem alias_resolution_invoice_number_witness :
    lookupVal "rechnungsnummer"
      (force_schema_shape (fun _ _ _ _ => []) [("invoice_number", Value.str "RE-2026-1520")]
        rechnung_schema "rechnung") = some (Value.str "RE-2026-1520") :=
  (alias_resolution_invoice_number (fun _ _ _ _ => [])).1

theorem lookupSpec_some_mem (k : String) (specs : List (String × FieldSpec))
    (spec : FieldSpec) (h : lookupSpec k specs = some spec) : (k, spec) ∈ specs := by
  induction specs with
  | nil => cases h
  | cons hd tl ih =>
    obtain ⟨k', s⟩ := hd
    simp only [lookupSpec] at h
    by_cases hk : k' = k
    · rw [if_pos hk] at h
      cases h
      subst hk
      exact List.mem_cons_self _ _
    · rw [if_neg hk] at h
      exact List.mem_cons_of_mem _ (ih h)

theorem lookupSpec_mem_of_nodup (k : String) (spec : FieldSpec)
    (specs : List (String × FieldSpec)) (hn : (specs.map Prod.fst).Nodup)
    (hm : (k, spec) ∈ specs) : lookupSpec k specs = some spec := by
  induction specs with
  | nil => cases hm
  | cons hd tl ih =>
    obtain ⟨k', s⟩ := hd
    simp only [List.map_cons, List.nodup_cons] at hn
    rcases List.mem_cons.mp hm with h | h
    · cases h
      simp [lookupSpec]
    · have hk : k' ≠ k := by
        intro he
        exact hn.1 (he ▸ (List.mem_map.mpr ⟨(k, spec), h, rfl⟩))
      simp only [lookupSpec, if_neg hk]
      exact ih hn.2 h

theorem lookupVal_eq_none_iff (k : String) (d : List (String × Value)) :
    lookupVal k d = none ↔ k ∉ d.map Prod.fst := by
  induction d with
  | nil => simp [lookupVal]
  | cons hd tl ih =>
    obtain ⟨k', v⟩ := hd
    by_cases hk : k' = k
    · subst hk
      simp [lookupVal]
    · simp only [lookupVal, if_neg hk, List.map_cons, List.mem_cons]
      rw [ih]
      constructor
      · intro h hor
        rcases hor with h1 | h1
        · exact hk h1.symm
        · exact h h1
      · intro h h1
        exact h (Or.inr h1)

theorem mem_insertSorted (a s : String) (l : List String) :
    a ∈ insertSorted s l ↔ a = s ∨ a ∈ l := by
  induction l with
  | nil => simp [insertSorted]
  | cons x xs ih =>
    simp only [insertSorted]
    by_cases h : s ≤ x
    · simp [h]
    · simp [h, ih]
      tauto

theorem mem_sortedStrings (a : String) (l : List String) :
    a ∈ sortedStrings l ↔ a ∈ l := by
  induction l with
  | nil => simp [sortedStrings]
  | cons x xs ih =>
    simp only [sortedStrings, List.foldr_cons] at ih ⊢
    rw [mem_insertSorted, ih]
    simp

theorem isNull_eq_false_iff (v : Value) : isNull v = false ↔ v ≠ Value.null := by
  cases v <;> simp [isNull]

theorem isEmptyValue_iff (v : Value) :
    isEmptyValue v = true
      ↔ (v = .null ∨ v = .str "" ∨ v = .dict [] ∨ v = .list []) := by
  cases v with
  | null => simp [isEmptyValue, isNull]
  | str s => simp [isEmptyValue, isNull, valueEq, numVal]
  | int n => simp [isEmptyValue, isNull, valueEq, numVal]
  | float q => simp [isEmptyValue, isNull, valueEq, numVal]
  | bool b => simp [isEmptyValue, isNull, valueEq, numVal]
  | list xs => cases xs <;> simp [isEmptyValue, isNull, valueEq, valueListEq, numVal]
  | dict xs => cases xs <;> simp [isEmptyValue, isNull, valueEq, valueDictLe, numVal]

theorem validate_scheme_error_iff
    (data : List (String × Value)) (specs : List (String × FieldSpec))
    (allow_extra : Bool) (hS : (specs.map Prod.fst).Nodup) :
    (∃ v ∈ (validate_scheme data specs allow_extra).violations, v.severity = some "error")
      ↔ ∃ k spec, lookupSpec k specs = some spec ∧ spec.required = true
          ∧ (lookupVal k data = none
             ∨ ∃ val, lookupVal k data = some val
                 ∧ (val = .null ∨ val = .str "" ∨ val = .dict []
                    ∨ val = .list [])) := by
  simp only [validate_scheme]
  constructor
  · rintro ⟨v, hv, hsev⟩
    simp only [List.mem_append] at hv
    rcases hv with ((hv | hv) | hv) | hv
    · -- missing-key violations
      obtain ⟨k, hk, hfk⟩ := List.mem_filterMap.mp hv
      cases hls : lookupSpec k specs with
      | none => rw [hls] at hfk; cases hfk
      | some spec =>
        rw [hls] at hfk
        cases hfk
        simp only [Option.some.injEq] at hsev
        have hreq : spec.required = true := by
          by_cases h : spec.required = true
          · exact h
          · rw [if_neg h] at hsev
            exact absurd hsev (by decide)
        rw [mem_sortedStrings, List.mem_dedup, List.mem_filter] at hk
        have hnc := of_decide_eq_true hk.2
        refine ⟨k, spec, hls, hreq, Or.inl ?_⟩
        rw [lookupVal_eq_none_iff]
        intro hmem
        exact hnc (List.elem_iff.mpr hmem)
    · -- unexpected-key violations are warnings
      split at hv
      · obtain ⟨k, _, rfl⟩ := List.mem_map.mp hv
        simp at hsev
      · cases hv
    · -- required-empty violations
      obtain ⟨kv, hkv, hfk⟩ := List.mem_filterMap.mp hv
      cases hlv : lookupVal kv.1 data with
      | none => rw [hlv] at hfk; cases hfk
      | some val =>
        rw [hlv] at hfk
        dsimp only at hfk
        by_cases hc : kv.2.required = true ∧ isEmptyValue val = true
        · rw [if_pos hc] at hfk
          cases hfk
          exact ⟨kv.1, kv.2, lookupSpec_mem_of_nodup kv.1 kv.2 specs hS hkv, hc.1,
            Or.inr ⟨val, hlv, (isEmptyValue_iff val).mp hc.2⟩⟩
        · rw [if_neg hc] at hfk
          cases hfk
    · -- type-mismatch violations are warnings
      obtain ⟨kv, hkv, hfk⟩ := List.mem_filterMap.mp hv
      cases hlv : lookupVal kv.1 data with
      | none => rw [hlv] at hfk; cases hfk
      | some val =>
        rw [hlv] at hfk
        dsimp only at hfk
        by_cases h1 : isNull val = true
        · rw [if_pos h1] at hfk
          cases hfk
        · rw [if_neg h1] at hfk
          by_cases h2 : ¬ is_instance val kv.2.dtype = true
          · rw [if_pos h2] at hfk
            cases hfk
            simp at hsev
          · rw [if_neg h2] at hfk
            cases hfk
  · rintro ⟨k, spec, hls, hreq, hcase⟩
    have hkmem : (k, spec) ∈ specs := lookupSpec_some_mem k specs spec hls
    rcases hcase with hlv | ⟨val, hlv, hempty⟩
    · -- missing key yields an error missing_key violation
      refine ⟨{ field := k, rule := "missing_key",
                severity := some (if spec.required then "error" else "warning"),
                message := "Feld \x27" ++ k ++ "\x27 fehlt im extrahierten Ergebnis." },
              ?_, by rw [hreq]; rfl⟩
      simp only [List.mem_append]
      refine Or.inl (Or.inl (Or.inl ?_))
      refine List.mem_filterMap.mpr ⟨k, ?_, by rw [hls]⟩
      rw [mem_sortedStrings, List.mem_dedup, List.mem_filter]
      refine ⟨List.mem_map.mpr ⟨(k, spec), hkmem, rfl⟩, ?_⟩
      refine decide_eq_true ?_
      intro hc
      rw [lookupVal_eq_none_iff] at hlv
      exact hlv (List.elem_iff.mp hc)
    · -- required-but-empty key yields an error required_field_empty violation
      refine ⟨{ field := k, rule := "required_field_empty", severity := some "error",
                message := "Pflichtfeld \x27" ++ k ++ "\x27 ist leer." },
              ?_, rfl⟩
      simp only [List.mem_append]
      refine Or.inl (Or.inr ?_)
      refine List.mem_filterMap.mpr ⟨(k, spec), hkmem, ?_⟩
      simp only [hlv]
      rw [if_pos ⟨by rw [hreq], (isEmptyValue_iff val).mpr hempty⟩]

/-- C2: `validate_scheme(D, S)` returns `is_valid = false` iff some
produced violation has severity `error`, which happens exactly when a
required key of `S` is absent from `D` or present but empty (`None`,
empty string, empty dict, empty list); and a runtime-type mismatch on a
non-null value always produces a warning `type_mismatch` violation, so
it alone never makes `is_valid` false.  Hypothesis: the spec map has
distinct keys (it models a Python dict). -/
theorem validate_scheme_is_valid_spec
    (data : List (String × Value)) (specs : List (String × FieldSpec))
    (allow_extra : Bool) (hS : (specs.map Prod.fst).Nodup) :
    ((validate_scheme data specs allow_extra).is_valid = false
      ↔ ∃ v ∈ (validate_scheme data specs allow_extra).violations, v.severity = some "error")
    ∧ ((validate_scheme data specs allow_extra).is_valid = false
      ↔ ∃ k spec, lookupSpec k specs = some spec ∧ spec.required = true
          ∧ (lookupVal k data = none
             ∨ ∃ val, lookupVal k data = some val
                 ∧ (val = .null ∨ val = .str "" ∨ val = .dict [] ∨ val = .list [])))
    ∧ (∀ k spec val, lookupSpec k specs = some spec → lookupVal k data = some val →
        val ≠ Value.null → is_instance val spec.dtype = false →
        ∃ v ∈ (validate_scheme data specs allow_extra).violations,
          v.field = k ∧ v.rule = "type_mismatch" ∧ v.severity = some "warning") := by
  have ha : (validate_scheme data specs allow_extra).is_valid = false
      ↔ ∃ v ∈ (validate_scheme data specs allow_extra).violations,
          v.severity = some "error" := by
    simp only [validate_scheme]
    rw [decide_eq_false_iff_not, not_not, List.any_eq_true]
    constructor
    · rintro ⟨v, hv, hs⟩
      exact ⟨v, hv, of_decide_eq_true hs⟩
    · rintro ⟨v, hv, hs⟩
      exact ⟨v, hv, decide_eq_true hs⟩
  refine ⟨ha, ha.trans (validate_scheme_error_iff data specs allow_extra hS), ?_⟩
  intro k spec val hls hlv hnn hni
  have hkmem : (k, spec) ∈ specs := lookupSpec_some_mem k specs spec hls
  refine ⟨{ field := k, rule := "type_mismatch", severity := some "warning",
            message := "Feld \x27" ++ k ++ "\x27 hat falschen Datentyp. Erwartet: "
              ++ dtypeName spec.dtype ++ ", Gefunden: " ++ pyTypeName val ++ "." },
          ?_, rfl, rfl, rfl⟩
  simp only [validate_scheme, List.mem_append]
  refine Or.inr ?_
  refine List.mem_filterMap.mpr ⟨(k, spec), hkmem, ?_⟩
  simp only [hlv]
  rw [if_neg (by rw [(isNull_eq_false_iff val).mpr hnn]; exact Bool.false_ne_true),
    if_pos (by rw [hni]; exact Bool.false_ne_true)]

/-- Witness for C2 at a concrete record and spec map: a required key
present with the wrong runtime type is valid (warning only), while an
absent required key is invalid. -/
theorem validate_scheme_is_valid_spec_witness :
    ((validate_scheme [("a", Value.int 3)] [("a", ⟨true, .str, .null, none⟩)]
        true).is_valid = false
      ↔ ∃ v ∈ (validate_scheme [("a", Value.int 3)] [("a", ⟨true, .str, .null, none⟩)]
          true).violations, v.severity = some "error")
    ∧ ∃ v ∈ (validate_scheme [("a", Value.int 3)] [("a", ⟨true, .str, .null, none⟩)]
        true).violations,
        v.field = "a" ∧ v.rule = "type_mismatch" ∧ v.severity = some "warning" :=
  ⟨(validate_scheme_is_valid_spec [("a", Value.int 3)] [("a", ⟨true, .str, .null, none⟩)]
      true (by decide)).1,
   (validate_scheme_is_valid_spec [("a", Value.int 3)] [("a", ⟨true, .str, .null, none⟩)]
      true (by decide)).2.2 "a" ⟨true, .str, .null, none⟩ (Value.int 3) rfl rfl
      (by intro h; cases h) rfl⟩

/-- C10: `aggregate_validation` defaults a schema or rule violation
without a `"severity"` entry to `error` (it alone forces
`final_status = "invalid"`), but defaults a semantic issue without a
`"severity"` entry to `warning` (it alone yields only
`final_status = "review_needed"`). -/
theorem aggregate_default_severities
    (p : String) (v w : Violation) (i : Issue)
    (hv : v.severity = none) (hw : w.severity = none) (hi : i.severity = none) :
    (aggregate_validation p ⟨true, [v]⟩ ⟨true, []⟩ ⟨some "valid", []⟩ none).final_status = "invalid"
    ∧ (aggregate_validation p ⟨true, []⟩ ⟨true, [w]⟩ ⟨some "valid", []⟩ none).final_status = "invalid"
    ∧ (aggregate_validation p ⟨true, []⟩ ⟨true, []⟩ ⟨some "valid", [i]⟩ none).final_status
        = "review_needed" := by
  refine ⟨?_, ?_, ?_⟩ <;> simp [aggregate_validation, countSevs, hv, hw, hi]

/-- Witness for C10 at a concrete violation/issue lacking a severity. -/
theorem aggregate_default_severities_witness :
    (aggregate_validation "doc.png" ⟨true, [⟨"f", "r", none, "m"⟩]⟩ ⟨true, []⟩
        ⟨some "valid", []⟩ none).final_status = "invalid"
    ∧ (aggregate_validation "doc.png" ⟨true, []⟩ ⟨true, [⟨"g", "r2", none, "m2"⟩]⟩
        ⟨some "valid", []⟩ none).final_status = "invalid"
    ∧ (aggregate_validation "doc.png" ⟨true, []⟩ ⟨true, []⟩
        ⟨some "valid", [{ severity := none }]⟩ none).final_status = "review_needed" :=
  aggregate_default_severities "doc.png" ⟨"f", "r", none, "m"⟩ ⟨"g", "r2", none, "m2"⟩
    { severity := none } rfl rfl rfl

/-- C3: `merge_semantic_results` yields status `invalid` if any stage's
status is `invalid`, else `uncertain` if any stage's status is
`uncertain` or `parse_error` (a missing status reads as `uncertain`),
else `valid`; and the merged status is invariant under permutation of
the stage list. -/
theorem merge_semantic_results_status_spec (stage_results : List StageResult) :
    ((merge_semantic_results stage_results).status =
      if stage_results.any (fun r => r.status.getD "uncertain" = "invalid") then "invalid"
      else if stage_results.any (fun r => r.status.getD "uncertain" = "uncertain"
          ∨ r.status.getD "uncertain" = "parse_error") then "uncertain"
      else "valid")
    ∧ ∀ l' : List StageResult, stage_results.Perm l' →
        (merge_semantic_results stage_results).status = (merge_semantic_results l').status := by
  have hcong : ∀ l : List StageResult,
      (l.any fun r => decide (r.status.getD "uncertain" = "parse_error"
          ∨ r.status.getD "uncertain" = "uncertain"))
      = (l.any fun r => decide (r.status.getD "uncertain" = "uncertain"
          ∨ r.status.getD "uncertain" = "parse_error")) := by
    intro l
    induction l with
    | nil => rfl
    | cons x rest ih =>
      simp only [List.any_cons, ih]
      by_cases h1 : x.status.getD "uncertain" = "parse_error" <;>
        by_cases h2 : x.status.getD "uncertain" = "uncertain" <;> simp [h1, h2]
  constructor
  · simp only [merge_semantic_results, any_map_eq]
    rw [hcong]
  · intro l' hp
    simp only [merge_semantic_results, any_map_eq]
    rw [any_eq_of_perm hp, any_eq_of_perm hp]

/-- Witness for C3: merging `[valid, invalid]` yields `invalid` in
either order. -/
theorem merge_semantic_results_status_spec_witness :
    (merge_semantic_results [{ status := some "valid" }, { status := some "invalid" }]).status
      = "invalid"
    ∧ (merge_semantic_results [{ status := some "invalid" }, { status := some "valid" }]).status
      = (merge_semantic_results
          [{ status := some "valid" }, { status := some "invalid" }]).status := by
  have h := merge_semantic_results_status_spec
    [{ status := some "valid" }, { status := some "invalid" }]
  refine ⟨?_, ?_⟩
  · rw [h.1]; rfl
  · exact (h.2 [{ status := some "invalid" }, { status := some "valid" }] (by decide)).symm

end DocVal
